import Mathlib

/-!
Verification of the `fgpython/fgsocket.py` protocol endpoint
(`FGSocketConnection`): field registry, setpoint/scale/bias vectors,
outbound command encoding, inbound datagram decoding, and the receive
loop.  Python floats are modelled as rationals (`ℚ`); Python exceptions
(`KeyError`, `ValueError`, `IndexError`) are modelled by `Except` with an
explicit error type matching the specification's error vocabulary.
-/

namespace FGSocket

/-- Errors raised by the endpoint.  `unknownField` models the `KeyError`
raised by `self.id[prop]` for an unregistered name; `malformedPacket`
models the `ValueError` raised by `float(token)` on a non-numeric token;
`indexOutOfRange` models the `IndexError` raised by list indexing. -/
inductive FGError where
  | unknownField (name : String)
  | malformedPacket (token : String)
  | indexOutOfRange (i : Int)
  deriving DecidableEq, Repr

/-- The mutable state of one `FGSocketConnection` endpoint.  `data` is the
current inbound state snapshot (`self.data`), `sp`/`scale`/`bias` the three
parameter vectors, `id` the name-to-index dictionary kept as an
insertion-ordered association list, `update` the receive-loop lifecycle
flag, `connected` the connection-state flag, and `threads` the number of
receive threads spawned so far by `_thread.start_new_thread` (the source
itself keeps no such counter; it counts the spawns for the lifecycle
analysis). -/
structure FGState where
  data : List ℚ
  sp : List ℚ
  scale : List ℚ
  bias : List ℚ
  id : List (String × Nat)
  update : Bool
  connected : Bool
  threads : Nat
  deriving DecidableEq, Repr

/-- Lookup in the `id` dictionary: a Python `dict` built by insertion, so a
later binding of the same key overwrites an earlier one — the last matching
entry of the insertion-ordered list wins.  `none` models `KeyError`. -/
def dictLookup (m : List (String × Nat)) (k : String) : Option Nat :=
  ((m.filter (fun p => p.1 = k)).getLast?).map (fun p => p.2)

/-- Endpoint construction (`__init__`): for each chunk name, in document
order, append `0.0` to `sp`, `1.0` to `scale`, `0.0` to `bias` and record
the next index in `id`.  `data` starts empty, `update` and `connected`
start `False`. -/
def initState (fields : List String) : FGState :=
  { data := []
    sp := fields.map (fun _ => 0)
    scale := fields.map (fun _ => 1)
    bias := fields.map (fun _ => 0)
    id := fields.enum.map (fun p => (p.2, p.1))
    update := false
    connected := false
    threads := 0 }

/-- Membership test `has_variable`: `prop in self.id.keys()`. -/
def has_variable (st : FGState) (prop : String) : Bool :=
  st.id.any (fun p => p.1 = prop)

/-- Source `update_bias`: `self.bias[self.id[prop]] = bias`.  The dictionary
lookup happens first, so an unregistered name raises before any write. -/
def update_bias (st : FGState) (prop : String) (b : ℚ) : Except FGError FGState :=
  match dictLookup st.id prop with
  | none => .error (.unknownField prop)
  | some i => .ok { st with bias := st.bias.set i b }

/-- Source `update_scale`: `self.scale[self.id[prop]] = scale`. -/
def update_scale (st : FGState) (prop : String) (s : ℚ) : Except FGError FGState :=
  match dictLookup st.id prop with
  | none => .error (.unknownField prop)
  | some i => .ok { st with scale := st.scale.set i s }

/-- Source `update_setpoint`: `self.sp[self.id[prop]] = value`. -/
def update_setpoint (st : FGState) (prop : String) (v : ℚ) : Except FGError FGState :=
  match dictLookup st.id prop with
  | none => .error (.unknownField prop)
  | some i => .ok { st with sp := st.sp.set i v }

/-- Source `get_setpoint`: `return self.sp[self.id[prop]]`. -/
def get_setpoint (st : FGState) (prop : String) : Except FGError ℚ :=
  match dictLookup st.id prop with
  | none => .error (.unknownField prop)
  | some i => .ok (st.sp.getD i 0)

/-- The outbound command vector built by `send_cmd`:
`[self.scale[i]*(self.sp[i] + self.bias[i]) for i in range(len(self.sp))]`.
By the construction invariant the three vectors have equal length, so the
`getD` default is never consulted for well-formed states. -/
def send_cmd_values (st : FGState) : List ℚ :=
  (List.range st.sp.length).map
    (fun i => st.scale.getD i 0 * (st.sp.getD i 0 + st.bias.getD i 0))

/-- Left-pads a digit string with zeros to width `k`. -/
def padZeros (k : Nat) (s : String) : String :=
  String.mk (List.replicate (k - s.length) '0') ++ s

/-- Models Python `'%f' % x`: the value rendered with exactly six digits
after the decimal point.  `n` is `|x| * 10^6` rounded half-up, computed on
the numerator and denominator of the reduced fraction; every value
formatted in this development is exact at six decimal places, so the
rounding mode is never exercised. -/
def formatF (q : ℚ) : String :=
  let sign := if q.num < 0 then "-" else ""
  let n : Nat := (q.num.natAbs * 2000000 + q.den) / (2 * q.den)
  sign ++ toString (n / 1000000) ++ "." ++ padZeros 6 (toString (n % 1000000))

/-- Models Python `str(x)` for a float `x`: the shortest decimal rendering,
with at least one digit after the point.  `k` is the least number of
decimal digits that renders the value exactly.  The model covers values
whose decimal expansion terminates within 17 digits and whose repr is
positional (no exponent), which includes every IEEE double that CPython
prints in positional notation. -/
def pyStr (q : ℚ) : String :=
  let sign := if q.num < 0 then "-" else ""
  if q.den = 1 then sign ++ toString q.num.natAbs ++ ".0"
  else
    let k := ((List.range 18).find? (fun k => 10 ^ k % q.den == 0)).getD 17
    let n := q.num.natAbs * 10 ^ k / q.den
    sign ++ toString (n / 10 ^ k) ++ "." ++ padZeros k (toString (n % 10 ^ k))

/-- The line built by `send_command_udp`: every element of `command[:-1]`
appended as `'%s%f, '`, then the final element appended as
`'%s%s\n' % (message, str(command[-1]))`.  On an empty command the source's
`command[-1]` raises `IndexError`. -/
def send_command_udp_line (command : List ℚ) : Except FGError String :=
  match command.getLast? with
  | none => .error (.indexOutOfRange (-1))
  | some last =>
    .ok ((command.dropLast.foldl (fun m c => m ++ formatF c ++ ", ") "")
      ++ pyStr last ++ "\n")

/-- Source `send_cmd`: build the transformed command vector and hand it to
`send_command_udp`; the value is the outbound wire line. -/
def send_cmd (st : FGState) : Except FGError String :=
  send_command_udp_line (send_cmd_values st)

/-- Splitting at maximal runs of delimiter characters, one character at a
time: `inRun` records whether the previous character was a delimiter (so
further delimiters extend the same run), `acc` holds the current token
reversed.  A leading or trailing run yields an empty token, and the empty
input yields the single empty token, matching `re.split` on a
one-or-more-delimiters pattern. -/
def splitRunsGo (p : Char → Bool) : Bool → List Char → List Char → List (List Char)
  | false, [], acc => [acc.reverse]
  | false, c :: cs, acc =>
    if p c then acc.reverse :: splitRunsGo p true cs []
    else splitRunsGo p false cs (c :: acc)
  | true, [], _ => [[]]
  | true, c :: cs, acc =>
    if p c then splitRunsGo p true cs acc
    else splitRunsGo p false cs [c]

/-- Models `re.split(r'\t+', s)` on the character list: split at maximal
runs of tab characters. -/
def splitTabRuns (l : List Char) : List (List Char) :=
  splitRunsGo (fun c => c = '\t') false l []

/-- String form of `re.split(r'\t+', s)`. -/
def pySplitTabs (s : String) : List String :=
  (splitTabRuns s.data).map (fun cs => String.mk cs)

/-- The whitespace characters Python's `float()` strips from both ends of
its argument. -/
def isPySpace (c : Char) : Bool :=
  c = ' ' || c = '\t' || c = '\n' || c = '\r' || c = '\x0b' || c = '\x0c'

/-- Value of a digit string, most significant digit first. -/
def digitsToNat (ds : List Char) : Nat :=
  ds.foldl (fun n c => 10 * n + (c.toNat - 48)) 0

/-- Parses an optional exponent suffix: the empty remainder means exponent
zero, otherwise `e`/`E`, an optional sign and a nonempty digit run;
anything else trailing makes the parse fail. -/
def parseExpOpt (cs : List Char) : Option Int :=
  match cs with
  | [] => some 0
  | e :: rest =>
    if e = 'e' || e = 'E' then
      let p := match rest with
        | '+' :: r => ((1 : Int), r)
        | '-' :: r => ((-1 : Int), r)
        | r => ((1 : Int), r)
      if p.2 ≠ [] ∧ p.2.all Char.isDigit then
        some (p.1 * (digitsToNat p.2 : Int))
      else none
    else none

/-- The rational `m / 10^f * 10^e` for a mantissa read as the integer `m`
with `f` of its digits after the decimal point, built with `mkRat` on
integer arithmetic. -/
def ratOfDigits (m : Nat) (f : Nat) (e : Int) : ℚ :=
  if 0 ≤ e - (f : Int) then mkRat ((m : Int) * 10 ^ (e - (f : Int)).toNat) 1
  else mkRat (m : Int) (10 ^ ((f : Int) - e).toNat)

/-- Parses an unsigned decimal literal (`digits`, `digits.digits`,
`digits.`, `.digits`, each with an optional exponent). -/
def parseDecCore (cs : List Char) : Option ℚ :=
  let ipart := cs.takeWhile Char.isDigit
  let rest := cs.dropWhile Char.isDigit
  match rest with
  | '.' :: rest2 =>
    let fpart := rest2.takeWhile Char.isDigit
    let rest3 := rest2.dropWhile Char.isDigit
    if ipart = [] ∧ fpart = [] then none
    else (parseExpOpt rest3).map (fun e =>
      ratOfDigits (digitsToNat ipart * 10 ^ fpart.length + digitsToNat fpart)
        fpart.length e)
  | _ =>
    if ipart = [] then none
    else (parseExpOpt rest).map (fun e => ratOfDigits (digitsToNat ipart) 0 e)

/-- Models Python `float(s)` on decimal literals: strip whitespace from
both ends, then parse an optionally signed decimal number.  `none` models
the `ValueError` on a non-numeric token.  The `inf`/`nan` and underscored
literal forms accepted by CPython are outside the wire format and outside
`ℚ`, and are not modelled. -/
def pyFloat (s : String) : Option ℚ :=
  let cs := ((s.data.dropWhile isPySpace).reverse.dropWhile isPySpace).reverse
  match cs with
  | '+' :: rest => parseDecCore rest
  | '-' :: rest => (parseDecCore rest).map (fun q => -q)
  | _ => parseDecCore cs

/-- Left-to-right `float` conversion of every token, failing at the first
non-numeric token as the list comprehension `[float(i) for i in ...]`
does. -/
def parseTokens : List String → Except FGError (List ℚ)
  | [] => .ok []
  | t :: ts =>
    match pyFloat t with
    | none => .error (.malformedPacket t)
    | some q => (parseTokens ts).map (fun vs => q :: vs)

/-- Decoding an inbound datagram string, as in the receive loop body:
`[float(i) for i in re.split(r'\t+', data)]`.  The source computes
`data.rstrip('\n')` but discards the result, so the string is decoded
unchanged. -/
def decodeLine (s : String) : Except FGError (List ℚ) :=
  parseTokens (pySplitTabs s)

/-- How one run of the receive loop ends, given the finite list of modelled
inbound datagrams: still `blocked` in `recvfrom` waiting for a datagram
beyond the modelled ones, `stopped` after a clean exit (the `update` flag
is down or the loop hit `break`), or `crashed` when an uncaught exception
propagated out of the loop body. -/
inductive LoopOutcome where
  | blocked
  | stopped
  | crashed (e : FGError)
  deriving DecidableEq, Repr

/-- The `while self.update == True` loop of `receive_state`, consuming the
modelled inbound datagrams in order: check the flag, block on `recvfrom`,
`break` when the decoded string is empty, otherwise decode and replace
`self.data`; a `ValueError` from `float` is uncaught and crashes the
loop. -/
def receiveLoop (st : FGState) : List String → FGState × LoopOutcome
  | [] => if st.update then (st, .blocked) else (st, .stopped)
  | d :: rest =>
    if st.update then
      if d = "" then (st, .stopped)
      else
        match decodeLine d with
        | .error e => (st, .crashed e)
        | .ok vals => receiveLoop { st with data := vals } rest
    else (st, .stopped)

/-- Source `receive_state`: when not yet connected, block for one initial
datagram, set `connected` and discard that datagram's payload; then enter
the receive loop over the remaining datagrams. -/
def receive_state (st : FGState) (packets : List String) : FGState × LoopOutcome :=
  if st.connected then receiveLoop st packets
  else
    match packets with
    | [] => (st, .blocked)
    | _ :: rest => receiveLoop { st with connected := true } rest

/-- Source `start_receive_state`: set `self.update = True` and spawn a new
receive thread, unconditionally. -/
def start_receive_state (st : FGState) : FGState :=
  { st with update := true, threads := st.threads + 1 }

/-- Python list indexing `xs[i]`: non-negative indices below the length
index from the front, negative indices of magnitude at most the length
index from the back, anything else raises `IndexError`. -/
def pyGet (xs : List ℚ) (i : Int) : Except FGError ℚ :=
  if 0 ≤ i ∧ i < (xs.length : Int) then .ok (xs.getD i.toNat 0)
  else if -(xs.length : Int) ≤ i ∧ i < 0 then .ok (xs.getD (i + xs.length).toNat 0)
  else .error (.indexOutOfRange i)

/-- Left-to-right indexing of every requested position, failing at the
first out-of-range index as `[self.data[i] for i in idx]` does. -/
def pyGetList (xs : List ℚ) : List Int → Except FGError (List ℚ)
  | [] => .ok []
  | i :: is =>
    match pyGet xs i with
    | .error e => .error e
    | .ok v => (pyGetList xs is).map (fun vs => v :: vs)

/-- Source `get_state`: `return [self.data[i] for i in idx]`. -/
def get_state (st : FGState) (idx : List Int) : Except FGError (List ℚ) :=
  pyGetList st.data idx

/-- Splitting at maximal runs of horizontal whitespace (space or tab), the
delimiter the specification describes for the inbound decoder; written for
comparison with `splitTabRuns`, which is what the source actually does. -/
def splitHWsRuns (l : List Char) : List (List Char) :=
  splitRunsGo (fun c => c = ' ' || c = '\t') false l []

/-- The inbound decoder as the specification words it: split the line on
runs of one-or-more horizontal whitespace/tab characters, then parse each
token as a float. -/
def decodeLineSpecSplit (s : String) : Except FGError (List ℚ) :=
  parseTokens ((splitHWsRuns s.data).map (fun cs => String.mk cs))

/-- The operations of the endpoint's public API, used to analyse the
lifetime of the `connected` flag.  `recvState` carries the finite list of
inbound datagrams its run observes. -/
inductive FGOp where
  | updSp (p : String) (v : ℚ)
  | updScale (p : String) (v : ℚ)
  | updBias (p : String) (v : ℚ)
  | getSp (p : String)
  | getSt (idx : List Int)
  | sendCmd
  | startRecv
  | recvState (packets : List String)

/-- The endpoint state after one API operation.  Read-only operations and
raising operations leave the state unchanged (a `KeyError` in an update is
raised by the dictionary lookup before any vector write). -/
def applyOp (st : FGState) : FGOp → FGState
  | .updSp p v => ((update_setpoint st p v).toOption).getD st
  | .updScale p v => ((update_scale st p v).toOption).getD st
  | .updBias p v => ((update_bias st p v).toOption).getD st
  | .getSp _ => st
  | .getSt _ => st
  | .sendCmd => st
  | .startRecv => start_receive_state st
  | .recvState packets => (receive_state st packets).1

/-- A freshly constructed endpoint whose input protocol registers
`heading` at index 0 and `speed` at index 1. -/
def epHS : FGState := initState ["heading", "speed"]

/-- The same endpoint after its receive loop reached the streaming state:
`update` and `connected` are set and one datagram has been published. -/
def streamingEp : FGState := { epHS with data := [1], update := true, connected := true }

/-- An endpoint holding a three-element state snapshot. -/
def snapEp : FGState := { epHS with data := [10, 20, 30] }

/-- The receive loop never writes the `connected` flag: only the initial
block of `receive_state` does. -/
theorem receiveLoop_connected (packets : List String) :
    ∀ st : FGState, (receiveLoop st packets).1.connected = st.connected := by
  induction packets with
  | nil =>
    intro st
    cases h : st.update <;> simp [receiveLoop, h]
  | cons d rest ih =>
    intro st
    cases h : st.update with
    | false => simp [receiveLoop, h]
    | true =>
      by_cases hd : d = ""
      · simp [receiveLoop, h, hd]
      · cases hdec : decodeLine d with
        | error e => simp [receiveLoop, h, hd, hdec]
        | ok vals =>
          simp [receiveLoop, h, hd, hdec]
          exact ih { st with data := vals, update := true }

/-- A successful token parse yields one value per token. -/
theorem parseTokens_ok_length :
    ∀ (ts : List String) (vs : List ℚ), parseTokens ts = .ok vs → vs.length = ts.length := by
  intro ts
  induction ts with
  | nil => intro vs h; simp [parseTokens] at h; simp [← h]
  | cons t rest ih =>
    intro vs h
    cases hf : pyFloat t with
    | none => simp [parseTokens, hf] at h
    | some q =>
      cases hr : parseTokens rest with
      | error e => simp [parseTokens, hf, hr, Except.map] at h
      | ok ws =>
        simp [parseTokens, hf, hr, Except.map] at h
        subst h
        simp [ih ws hr]

/-- Run splitting always produces at least one token, whatever the mode
and accumulator. -/
theorem splitRunsGo_ne_nil (p : Char → Bool) :
    ∀ (l : List Char) (m : Bool) (acc : List Char), splitRunsGo p m l acc ≠ [] := by
  intro l
  induction l with
  | nil => intro m acc; cases m <;> simp [splitRunsGo]
  | cons c cs ih =>
    intro m acc
    cases m <;> by_cases h : p c <;> simp [splitRunsGo, h, ih]

/-- `re.split` always produces at least one token, even on the empty
string. -/
theorem splitTabRuns_ne_nil (l : List Char) : splitTabRuns l ≠ [] :=
  splitRunsGo_ne_nil _ l false []

/-- Token parsing fails exactly when some token is not a valid float. -/
theorem parseTokens_error_iff (ts : List String) :
    (∃ e, parseTokens ts = .error e) ↔ ∃ t ∈ ts, pyFloat t = none := by
  induction ts with
  | nil => simp [parseTokens]
  | cons t rest ih =>
    constructor
    · rintro ⟨e, he⟩
      cases hf : pyFloat t with
      | none => exact ⟨t, by simp, hf⟩
      | some q =>
        cases hr : parseTokens rest with
        | error e2 =>
          obtain ⟨t2, ht2, hn⟩ := ih.mp ⟨e2, hr⟩
          exact ⟨t2, by simp [ht2], hn⟩
        | ok ws => simp [parseTokens, hf, hr, Except.map] at he
    · rintro ⟨t2, ht2, hn⟩
      rcases List.mem_cons.mp ht2 with h1 | h2
      · subst h1
        exact ⟨.malformedPacket t2, by simp [parseTokens, hn]⟩
      · cases hf : pyFloat t with
        | none => exact ⟨.malformedPacket t, by simp [parseTokens, hf]⟩
        | some q =>
          obtain ⟨e, he⟩ := ih.mpr ⟨t2, h2, hn⟩
          exact ⟨e, by simp [parseTokens, hf, he, Except.map]⟩

/-- A name absent from `has_variable` is absent from the dictionary. -/
theorem dictLookup_eq_none (st : FGState) (p : String)
    (h : has_variable st p = false) : dictLookup st.id p = none := by
  simp [has_variable] at h
  have hf : st.id.filter (fun q => q.1 = p) = [] := by
    rw [List.filter_eq_nil_iff]
    intro a ha
    simpa using h a.1 a.2 ha
  simp [dictLookup, hf]

/-- C1: for an endpoint with a registered field, `send_cmd` builds the
outbound vector as `scale[i] * (setpoint[i] + bias[i])` for every index in
registration order, as a pure function of the three parameter vectors
alone, and the state reached by `update_setpoint`, `update_scale` and
`update_bias` on that field is the same in every one of the six call
orders, so the outbound value is independent of the update order. -/
theorem claim_C1_build_transform_order_independent
    (st : FGState) (p : String) (j : Nat) (v s b : ℚ)
    (hp : dictLookup st.id p = some j) :
    (∀ st2 : FGState, st2.sp = st.sp → st2.scale = st.scale → st2.bias = st.bias →
        send_cmd_values st2 = send_cmd_values st)
    ∧ (send_cmd_values st).length = st.sp.length
    ∧ (∀ i, i < st.sp.length →
        (send_cmd_values st).getD i 0 =
          st.scale.getD i 0 * (st.sp.getD i 0 + st.bias.getD i 0))
    ∧ ((update_setpoint st p v).bind (fun s1 => (update_scale s1 p s).bind
          (fun s2 => update_bias s2 p b))
        = (update_setpoint st p v).bind (fun s1 => (update_bias s1 p b).bind
          (fun s2 => update_scale s2 p s))
      ∧ (update_setpoint st p v).bind (fun s1 => (update_scale s1 p s).bind
          (fun s2 => update_bias s2 p b))
        = (update_scale st p s).bind (fun s1 => (update_setpoint s1 p v).bind
          (fun s2 => update_bias s2 p b))
      ∧ (update_setpoint st p v).bind (fun s1 => (update_scale s1 p s).bind
          (fun s2 => update_bias s2 p b))
        = (update_scale st p s).bind (fun s1 => (update_bias s1 p b).bind
          (fun s2 => update_setpoint s2 p v))
      ∧ (update_setpoint st p v).bind (fun s1 => (update_scale s1 p s).bind
          (fun s2 => update_bias s2 p b))
        = (update_bias st p b).bind (fun s1 => (update_setpoint s1 p v).bind
          (fun s2 => update_scale s2 p s))
      ∧ (update_setpoint st p v).bind (fun s1 => (update_scale s1 p s).bind
          (fun s2 => update_bias s2 p b))
        = (update_bias st p b).bind (fun s1 => (update_scale s1 p s).bind
          (fun s2 => update_setpoint s2 p v))) := by
  refine ⟨?_, ?_, ?_, ?_⟩
  · intro st2 h1 h2 h3
    simp [send_cmd_values, h1, h2, h3]
  · simp [send_cmd_values]
  · intro i hi
    simp [send_cmd_values, List.getD_eq_getElem?_getD, List.getElem?_map,
      List.getElem?_range, hi]
  · refine ⟨?_, ?_, ?_, ?_, ?_⟩ <;>
      simp [update_setpoint, update_scale, update_bias, hp, Except.bind]

/-- C1 witness: the heading/speed endpoint registers `heading` at index 0,
and the theorem's conclusions hold there at concrete values. -/
theorem claim_C1_witness :
    dictLookup epHS.id "heading" = some 0
    ∧ (0 : Nat) < epHS.sp.length
    ∧ (send_cmd_values epHS).getD 0 0 =
        epHS.scale.getD 0 0 * (epHS.sp.getD 0 0 + epHS.bias.getD 0 0)
    ∧ ((update_setpoint epHS "heading" 2).bind (fun s1 => (update_scale s1 "heading" 3).bind
          (fun s2 => update_bias s2 "heading" 4))
        = (update_bias epHS "heading" 4).bind (fun s1 => (update_scale s1 "heading" 3).bind
          (fun s2 => update_setpoint s2 "heading" 2))) :=
  ⟨by decide, by decide,
    (claim_C1_build_transform_order_independent epHS "heading" 0 2 3 4 (by decide)).2.2.1 0
      (by decide),
    (claim_C1_build_transform_order_independent epHS "heading" 0 2 3 4
      (by decide)).2.2.2.2.2.2.2⟩

/-- In the C2 scenario (registry heading at 0 and speed at 1, unit scale,
zero bias, heading setpoint 90), `send_cmd` emits the line
`"90.000000, 0.0\n"`: the last field goes through `str` and not through
the fixed-precision `%f`. -/
theorem send_cmd_heading90 :
    (update_setpoint epHS "heading" 90).bind send_cmd = .ok "90.000000, 0.0\n" := by
  have h1 : update_setpoint epHS "heading" 90 = .ok { epHS with sp := epHS.sp.set 0 90 } := by
    rfl
  rw [h1]
  have h2 : send_cmd_values { epHS with sp := epHS.sp.set 0 90 } = [90, 0] := by
    simp [send_cmd_values, epHS, initState, List.range_succ]
  show send_cmd { epHS with sp := epHS.sp.set 0 90 } = .ok "90.000000, 0.0\n"
  rw [send_cmd, h2]
  rfl

/-- C2 counterexample: in the claim's own scenario the emitted line is
`"90.000000, 0.0\n"`, not the claimed `"90.000000, 0.000000\n"` — the
precision of the final field differs from the others, so the encoder does
not render every field at a fixed precision. -/
theorem claim_C2_counterexample :
    (update_setpoint epHS "heading" 90).bind send_cmd = .ok "90.000000, 0.0\n"
    ∧ "90.000000, 0.0\n" ≠ "90.000000, 0.000000\n" :=
  ⟨send_cmd_heading90, by decide⟩

/-- C2 amended: for every non-empty vector the encoder renders each value
but the last as a fixed six-decimal `%f` field followed by a comma and a
space, renders the last value with Python `str` (shortest repr, so not at
the fixed precision), and terminates with one newline; the claim's
scenario therefore emits `"90.000000, 0.0\n"`. -/
theorem claim_C2_amended :
    (∀ (vs : List ℚ) (v : ℚ),
      send_command_udp_line (vs ++ [v]) =
        .ok ((vs.foldl (fun m c => m ++ formatF c ++ ", ") "") ++ pyStr v ++ "\n"))
    ∧ (update_setpoint epHS "heading" 90).bind send_cmd = .ok "90.000000, 0.0\n" := by
  constructor
  · intro vs v
    simp [send_command_udp_line, List.getLast?_concat, List.dropLast_concat]
  · exact send_cmd_heading90

/-- C3 counterexample: on the line `"1.0 2.0"` the split-on-horizontal-
whitespace decoder of the claim yields `[1, 2]`, but the code splits on
tab runs only, so the whole line is one token and decoding fails with a
malformed-packet error. -/
theorem claim_C3_counterexample :
    decodeLineSpecSplit "1.0 2.0" = .ok [1, 2]
    ∧ decodeLine "1.0 2.0" = .error (.malformedPacket "1.0 2.0") :=
  ⟨rfl, rfl⟩

/-- C3 amended: the decoder splits on runs of one-or-more tab characters
only (not on general horizontal whitespace), parses each token as a float,
and fails with a malformed-packet error exactly when some token is not a
valid number; the datagram `"12.5\t3.2\t0.0\n"` decodes to
`[12.5, 3.2, 0.0]` and `get_state [1]` then returns `[3.2]`. -/
theorem claim_C3_amended :
    decodeLine "12.5\t3.2\t0.0\n" = .ok [mkRat 25 2, mkRat 16 5, 0]
    ∧ get_state { epHS with data := [mkRat 25 2, mkRat 16 5, 0] } [1] = .ok [mkRat 16 5]
    ∧ decodeLine "12.5\tabc\t0.0\n" = .error (.malformedPacket "abc")
    ∧ (∀ s : String, (∃ e, decodeLine s = .error e) ↔ ∃ t ∈ pySplitTabs s, pyFloat t = none) := by
  refine ⟨by rfl, by rfl, by rfl, ?_⟩
  intro s
  exact parseTokens_error_iff (pySplitTabs s)

/-- C4 counterexample: starting the receive loop on a disconnected
endpoint and delivering one decodable datagram `"5.0\n"` sets `connected`
but leaves the snapshot empty and blocks awaiting more data: the first
packet's payload is discarded, not decoded and published as the claim
states. -/
theorem claim_C4_counterexample :
    decodeLine "5.0\n" = .ok [5]
    ∧ (receive_state (start_receive_state epHS) ["5.0\n"]).1.connected = true
    ∧ (receive_state (start_receive_state epHS) ["5.0\n"]).1.data = []
    ∧ (receive_state (start_receive_state epHS) ["5.0\n"]).2 = .blocked :=
  ⟨rfl, rfl, rfl, rfl⟩

/-- C4 amended: on start the loop blocks on a single inbound receive; the
first packet received transitions the endpoint to `connected` and moves to
the streaming loop, but its payload is discarded without being decoded or
published — publishing begins with the packets after it. -/
theorem claim_C4_amended (st : FGState) (d : String) (rest : List String)
    (h : st.connected = false) :
    receive_state st [] = (st, .blocked)
    ∧ receive_state st (d :: rest) = receiveLoop { st with connected := true } rest
    ∧ (receive_state st (d :: rest)).1.connected = true := by
  refine ⟨by simp [receive_state, h], by simp [receive_state, h], ?_⟩
  simp only [receive_state, h, Bool.false_eq_true, if_false]
  rw [receiveLoop_connected]

/-- C4 witness: the amended behaviour at the fresh heading/speed endpoint
with the single datagram `"5.0\n"`. -/
theorem claim_C4_witness :
    epHS.connected = false
    ∧ receive_state epHS [] = (epHS, .blocked)
    ∧ receive_state epHS ("5.0\n" :: []) = receiveLoop { epHS with connected := true } []
    ∧ (receive_state epHS ("5.0\n" :: [])).1.connected = true :=
  ⟨rfl, (claim_C4_amended epHS "5.0\n" [] rfl).1, (claim_C4_amended epHS "5.0\n" [] rfl).2.1,
    (claim_C4_amended epHS "5.0\n" [] rfl).2.2⟩

/-- C5 counterexample: in the streaming state with snapshot `[1]`, the
malformed datagram `"abc\n"` makes the loop crash with the
malformed-packet error instead of continuing: the previous snapshot is
retained, but the following valid datagram `"7.0\n"` is never received. -/
theorem claim_C5_counterexample :
    receiveLoop streamingEp ["abc\n", "7.0\n"]
      = (streamingEp, .crashed (.malformedPacket "abc\n"))
    ∧ streamingEp.data = [1]
    ∧ decodeLine "7.0\n" = .ok [7] :=
  ⟨rfl, rfl, rfl⟩

/-- C5 amended: a decode failure inside the loop is not caught: the
exception propagates and terminates the loop, the previous StateSnapshot
is retained unchanged, and no subsequent packet is received. -/
theorem claim_C5_amended (st : FGState) (d : String) (rest : List String) (e : FGError)
    (hu : st.update = true) (hd : d ≠ "") (hdec : decodeLine d = .error e) :
    receiveLoop st (d :: rest) = (st, .crashed e) := by
  simp [receiveLoop, hu, hd, hdec]

/-- C5 witness: the amended behaviour at the streaming endpoint on the
malformed datagram `"abc\n"`. -/
theorem claim_C5_witness :
    streamingEp.update = true
    ∧ "abc\n" ≠ ""
    ∧ decodeLine "abc\n" = .error (.malformedPacket "abc\n")
    ∧ receiveLoop streamingEp ("abc\n" :: ["7.0\n"])
        = (streamingEp, .crashed (.malformedPacket "abc\n")) :=
  ⟨rfl, by decide, rfl,
    claim_C5_amended streamingEp "abc\n" ["7.0\n"] (.malformedPacket "abc\n") rfl (by decide) rfl⟩

/-- C6 counterexample: the loop's clean exit is triggered by the empty raw
datagram string, whose decode is a malformed-packet error, not an empty
vector — no inbound payload "decodes to an empty vector" in this code, so
the claimed termination condition misdescribes the check. -/
theorem claim_C6_counterexample :
    decodeLine "" = .error (.malformedPacket "")
    ∧ receiveLoop streamingEp ["", "9.0\n"] = (streamingEp, .stopped) :=
  ⟨rfl, rfl⟩

/-- C6 amended: the loop exits cleanly, without error and with the
existing snapshot left in place, when the raw inbound payload is the empty
string; this check happens before decoding, and the decoder itself never
returns an empty vector (decoding always yields at least one token). -/
theorem claim_C6_amended :
    (∀ (st : FGState) (rest : List String), receiveLoop st ("" :: rest) = (st, .stopped))
    ∧ (∀ (s : String) (vs : List ℚ), decodeLine s = .ok vs → 0 < vs.length) := by
  constructor
  · intro st rest
    cases h : st.update <;> simp [receiveLoop, h]
  · intro s vs h
    have hlen := parseTokens_ok_length (pySplitTabs s) vs h
    have hne : pySplitTabs s ≠ [] := by
      simp only [pySplitTabs, ne_eq, List.map_eq_nil_iff]
      exact splitTabRuns_ne_nil _
    rw [hlen]
    exact List.length_pos.mpr hne

/-- C6 witness: the empty datagram stops the streaming endpoint's loop,
and the successfully decoded `"1.0"` yields a non-empty vector. -/
theorem claim_C6_witness :
    receiveLoop streamingEp ("" :: []) = (streamingEp, .stopped)
    ∧ decodeLine "1.0" = .ok [1]
    ∧ 0 < [(1 : ℚ)].length :=
  ⟨claim_C6_amended.1 streamingEp [], rfl, claim_C6_amended.2 "1.0" [1] rfl⟩

/-- C7: on a name that was never registered, `update_setpoint`,
`update_scale`, `update_bias` and `get_setpoint` all fail with the
unknown-field error and produce no successor state (the lookup raises
before any vector write, so all three parameter vectors are unchanged);
on a registered name the corresponding slot is set and the effect is
visible in the vector `send_cmd` builds. -/
theorem claim_C7_unknown_and_registered (st : FGState) (p : String) :
    (has_variable st p = false →
      (∀ v : ℚ, update_setpoint st p v = .error (.unknownField p)
        ∧ update_scale st p v = .error (.unknownField p)
        ∧ update_bias st p v = .error (.unknownField p))
      ∧ get_setpoint st p = .error (.unknownField p))
    ∧ (∀ (j : Nat) (v : ℚ), dictLookup st.id p = some j → j < st.sp.length →
        update_setpoint st p v = .ok { st with sp := st.sp.set j v }
        ∧ (send_cmd_values { st with sp := st.sp.set j v }).getD j 0
            = st.scale.getD j 0 * (v + st.bias.getD j 0)) := by
  constructor
  · intro h
    have hn := dictLookup_eq_none st p h
    exact ⟨fun v => ⟨by simp [update_setpoint, hn], by simp [update_scale, hn],
      by simp [update_bias, hn]⟩, by simp [get_setpoint, hn]⟩
  · intro j v hj hlt
    refine ⟨by simp [update_setpoint, hj], ?_⟩
    simp [send_cmd_values, List.getD_eq_getElem?_getD, List.getElem?_map,
      List.getElem?_range, hlt, List.getElem?_set_self hlt]

/-- C7 witness: `"unknown_field"` is unregistered on the heading/speed
endpoint and every name-keyed operation fails there, while the registered
`"heading"` update succeeds and feeds `send_cmd`. -/
theorem claim_C7_witness :
    has_variable epHS "unknown_field" = false
    ∧ update_setpoint epHS "unknown_field" 1 = .error (.unknownField "unknown_field")
    ∧ get_setpoint epHS "unknown_field" = .error (.unknownField "unknown_field")
    ∧ dictLookup epHS.id "heading" = some 0
    ∧ (0 : Nat) < epHS.sp.length
    ∧ update_setpoint epHS "heading" 90 = .ok { epHS with sp := epHS.sp.set 0 90 }
    ∧ (send_cmd_values { epHS with sp := epHS.sp.set 0 90 }).getD 0 0
        = epHS.scale.getD 0 0 * (90 + epHS.bias.getD 0 0) :=
  ⟨by decide,
    (((claim_C7_unknown_and_registered epHS "unknown_field").1 (by decide)).1 1).1,
    ((claim_C7_unknown_and_registered epHS "unknown_field").1 (by decide)).2,
    by decide, by decide,
    ((claim_C7_unknown_and_registered epHS "heading").2 0 90 (by decide) (by decide)).1,
    ((claim_C7_unknown_and_registered epHS "heading").2 0 90 (by decide) (by decide)).2⟩

/-- C8: the `connected` flag starts false at construction, becomes true on
the first received inbound packet, and no operation of the public API ever
resets it: once true it stays true under any sequence of operations,
including receive runs over malformed packets. -/
theorem claim_C8_connected_one_way (fields : List String) :
    (initState fields).connected = false
    ∧ (∀ (st : FGState) (packets : List String), st.connected = false → packets ≠ [] →
        (receive_state st packets).1.connected = true)
    ∧ (∀ (st : FGState) (ops : List FGOp), st.connected = true →
        (ops.foldl applyOp st).connected = true) := by
  refine ⟨rfl, ?_, ?_⟩
  · intro st packets h hne
    cases packets with
    | nil => exact absurd rfl hne
    | cons d rest =>
      simp only [receive_state, h, Bool.false_eq_true, if_false]
      rw [receiveLoop_connected]
  · intro st ops
    induction ops generalizing st with
    | nil => intro h; simpa using h
    | cons op rest ih =>
      intro h
      simp only [List.foldl_cons]
      apply ih
      cases op with
      | updSp p v => cases hl : dictLookup st.id p <;>
          simp [applyOp, update_setpoint, hl, h, Except.toOption]
      | updScale p v => cases hl : dictLookup st.id p <;>
          simp [applyOp, update_scale, hl, h, Except.toOption]
      | updBias p v => cases hl : dictLookup st.id p <;>
          simp [applyOp, update_bias, hl, h, Except.toOption]
      | getSp p => simpa using h
      | getSt idx => simpa using h
      | sendCmd => simpa using h
      | startRecv => simpa [applyOp, start_receive_state] using h
      | recvState packets =>
        simp only [applyOp, receive_state, h, if_true]
        rw [receiveLoop_connected]
        exact h

/-- C8 witness: the fresh heading/speed endpoint is disconnected, one
received packet connects it, and a streaming endpoint stays connected
under a sequence of operations that includes a malformed receive. -/
theorem claim_C8_witness :
    epHS.connected = false
    ∧ ["1.0\n"] ≠ ([] : List String)
    ∧ (receive_state epHS ["1.0\n"]).1.connected = true
    ∧ streamingEp.connected = true
    ∧ (([FGOp.startRecv, FGOp.updSp "heading" 2,
          FGOp.recvState ["abc"]]).foldl applyOp streamingEp).connected = true :=
  ⟨rfl, by decide,
    (claim_C8_connected_one_way ["heading", "speed"]).2.1 epHS ["1.0\n"] rfl (by decide),
    rfl,
    (claim_C8_connected_one_way ["heading", "speed"]).2.2 streamingEp
      [FGOp.startRecv, FGOp.updSp "heading" 2, FGOp.recvState ["abc"]] rfl⟩

/-- C9 counterexample: calling `start_receive_state` twice spawns two
receive threads — the call performs no already-running check, so it is
neither a no-op nor a failure on the second call. -/
theorem claim_C9_counterexample :
    epHS.threads = 0
    ∧ (start_receive_state epHS).threads = 1
    ∧ (start_receive_state (start_receive_state epHS)).threads = 2 :=
  ⟨rfl, rfl, rfl⟩

/-- C9 amended: `start_receive_state` is not idempotent: every call sets
the `update` flag and unconditionally starts one more receive thread, so a
second call results in a second concurrently running receive loop. -/
theorem claim_C9_amended (st : FGState) :
    (start_receive_state st).update = true
    ∧ (start_receive_state st).threads = st.threads + 1
    ∧ (start_receive_state (start_receive_state st)).threads = st.threads + 2 :=
  ⟨rfl, rfl, rfl⟩

/-- C10: for a snapshot of length `L` and any `k` with `1 ≤ k ≤ L`,
`get_state [-k]` succeeds and returns the element `k` positions from the
end (Python negative indexing), and an index fails with the out-of-range
error exactly when it is `≥ L` or `< -L`. -/
theorem claim_C10_negative_indexing (st : FGState) :
    (∀ k : Nat, 1 ≤ k → k ≤ st.data.length →
      get_state st [-(k : Int)] = .ok [st.data.getD (st.data.length - k) 0])
    ∧ (∀ i : Int, pyGet st.data i = .error (.indexOutOfRange i) ↔
        ((st.data.length : Int) ≤ i ∨ i < -(st.data.length : Int))) := by
  constructor
  · intro k h1 hk
    have hneg : ¬ (0 ≤ -(k : Int) ∧ -(k : Int) < (st.data.length : Int)) := by omega
    have hok : -(st.data.length : Int) ≤ -(k : Int) ∧ -(k : Int) < 0 := by
      constructor <;> [omega; omega]
    have htn : (-(k : Int) + st.data.length).toNat = st.data.length - k := by omega
    have hk0 : ¬(k = 0) := by omega
    simp [get_state, pyGetList, pyGet, hneg, hok, htn, hk0, Except.map]
  · intro i
    by_cases h1 : 0 ≤ i ∧ i < (st.data.length : Int)
    · simp [pyGet, h1]
      omega
    · by_cases h2 : -(st.data.length : Int) ≤ i ∧ i < 0
      · simp [pyGet, h1, h2]
        omega
      · simp [pyGet, h1, h2]
        omega

/-- C10 witness: on the snapshot `[10, 20, 30]`, `get_state [-1]` returns
the last element. -/
theorem claim_C10_witness :
    1 ≤ 1
    ∧ 1 ≤ snapEp.data.length
    ∧ get_state snapEp [-(1 : Int)] = .ok [snapEp.data.getD (snapEp.data.length - 1) 0] :=
  ⟨le_refl 1, by decide,
    (claim_C10_negative_indexing snapEp).1 1 (le_refl 1) (by decide)⟩

end FGSocket
